import Mathlib

/-!
Verification of the rag_news_hack repository: a shallow embedding of the
configuration-driven object factory (agentutil/__init__.py), the JSON config
store (agentutil/datastore/json.py), the retrieval backends
(agentutil/ragstore/postgres.py, sqlserver.py, azureaisearch.py) and the
client-side reciprocal rank fusion of RagTool (agentutil/tool/base.py).

Python floats are modelled by exact fractions (an Int numerator and
denominator, never normalised, so that all arithmetic is structural and
computable); Python dicts are modelled by association lists with
insertion-order semantics (updating an existing key keeps its position,
a new key is appended), matching CPython dict behaviour.
-/

deriving instance DecidableEq for Except

/-- Exact fraction standing in for a Python float.  The operations used by
the code (adding reciprocals, comparison) are exact in this range, so no
rounding behaviour is lost. -/
structure Frac where
  num : Int
  den : Int
deriving DecidableEq, Repr

/-- Addition of fractions without normalisation. -/
def Frac.add (a b : Frac) : Frac := ⟨a.num * b.den + b.num * a.den, a.den * b.den⟩

/-- Strict comparison by cross multiplication; valid because every
denominator built by the embedding is positive. -/
def Frac.blt (a b : Frac) : Bool := a.num * b.den < b.num * a.den

/-- Interpretation of a fraction as a rational number. -/
def Frac.toRat (a : Frac) : ℚ := (a.num : ℚ) / (a.den : ℚ)

/-- Python scalar values as they occur in metadata dicts of this repository
(strings, ints, bools, floats). -/
inductive PyVal where
  | vstr (s : String)
  | vint (n : Int)
  | vbool (b : Bool)
  | vfloat (q : Frac)
deriving DecidableEq, Repr

/-- Decimal digits of a natural number, driven by a fuel argument so the
definition is structural. -/
def natToStrAux : Nat → Nat → String
  | 0, _ => ""
  | fuel + 1, n =>
    if n < 10 then String.mk [Nat.digitChar n]
    else natToStrAux fuel (n / 10) ++ String.mk [Nat.digitChar (n % 10)]

def natToStr (n : Nat) : String := natToStrAux (n + 1) n

def intToStr (i : Int) : String :=
  if i < 0 then "-" ++ natToStr i.natAbs else natToStr i.natAbs

/-- Python str() of a scalar value.  Float rendering is abstracted as
numerator/denominator text; no claim evaluates str() on a float. -/
def pyStr : PyVal → String
  | .vstr s => s
  | .vint n => intToStr n
  | .vbool b => if b then "True" else "False"
  | .vfloat q => intToStr q.num ++ "/" ++ intToStr q.den

/-- Dict lookup (d.get / d[k]): first binding of the key, if any. -/
def dfind {κ β : Type} [DecidableEq κ] (k : κ) : List (κ × β) → Option β
  | [] => none
  | (k2, v) :: rest => if k = k2 then some v else dfind k rest

/-- Dict assignment d[k] = v: updating an existing key keeps its position,
a missing key is appended, exactly as a CPython dict. -/
def dinsert {κ β : Type} [DecidableEq κ] (k : κ) (v : β) : List (κ × β) → List (κ × β)
  | [] => [(k, v)]
  | (k2, v2) :: rest => if k = k2 then (k2, v) :: rest else (k2, v2) :: dinsert k v rest

/-- Number of bindings of a key in an association list (a well-formed dict
or SQL table with a primary key has at most one). -/
def countKey {κ β : Type} [DecidableEq κ] (k : κ) : List (κ × β) → Nat
  | [] => 0
  | (k2, _) :: rest => (if k = k2 then 1 else 0) + countKey k rest

def strContainsGo (pat : List Char) : List Char → Bool
  | [] => pat.isPrefixOf []
  | c :: rest => pat.isPrefixOf (c :: rest) || strContainsGo pat rest

/-- Python substring test (pat in hay). -/
def strContains (hay pat : String) : Bool := strContainsGo pat.data hay.data

/-- Python str.startswith. -/
def pyStartsWith (s pre : String) : Bool := pre.data.isPrefixOf s.data

/-- Python str.endswith. -/
def pyEndsWith (s suf : String) : Bool := suf.data.reverse.isPrefixOf s.data.reverse

def splitColonAux : List Char → List Char → List String
  | [], acc => [String.mk acc.reverse]
  | c :: rest, acc =>
    if c = ':' then String.mk acc.reverse :: splitColonAux rest []
    else splitColonAux rest (c :: acc)

/-- Python str.split(":"). -/
def pySplitColon (s : String) : List String := splitColonAux s.data []

/-!
## RagTool.__call__ (agentutil/tool/base.py, lines 73-109)

The tool issues query_text once per query, then performs client-side
reciprocal rank fusion with k = 60 over the per-query ranked lists and
renders the truncated fused list.  The store is abstracted as a pure
function from query string to result list, exactly the interface the code
consumes.  Failures of unguarded dict lookups (rag.metadata[...]) are
modelled in the Except monad as KeyError values.
-/

/-- RAGData dataclass (agentutil/ragstore/base.py). -/
structure RAGData where
  data : String
  distance : Frac
  metadata : List (String × PyVal)
deriving DecidableEq, Repr

/-- State of the fusion loop: the scores defaultdict and the rank_map dict,
both keyed by the Python value found under metadata id. -/
structure RRFState where
  scores : List (PyVal × Frac)
  rankMap : List (PyVal × RAGData)
deriving DecidableEq, Repr

/-- scores[id] += 1 / (k + rank + 1) on a defaultdict(float): an absent key
starts from zero and is appended. -/
def addScore (k : PyVal) (inc : Frac) : List (PyVal × Frac) → List (PyVal × Frac)
  | [] => [(k, inc)]
  | (k2, v) :: rest => if k = k2 then (k2, v.add inc) :: rest else (k2, v) :: addScore k inc rest

/-- Inner loop: for rank, rag in enumerate(rag_list).  The id lookup
rag.metadata[id] is unguarded and raises KeyError when absent. -/
def rrfList : List RAGData → Nat → RRFState → Except String RRFState
  | [], _, st => .ok st
  | rag :: rest, rank, st =>
    match dfind "id" rag.metadata with
    | none => .error "KeyError: id"
    | some idv =>
      rrfList rest (rank + 1)
        ⟨addScore idv ⟨1, Int.ofNat (60 + rank + 1)⟩ st.scores, dinsert idv rag st.rankMap⟩

/-- Outer loop over data.items(), in dict insertion order. -/
def rrfAll : List (String × List RAGData) → RRFState → Except String RRFState
  | [], st => .ok st
  | (_, rags) :: rest, st => (rrfList rags 0 st).bind (rrfAll rest)

/-- data[query] = self.rag_store.query_text(query) accumulated over the
queries list: a dict keyed by query string. -/
def dataDict (store : String → List RAGData) (queries : List String) :
    List (String × List RAGData) :=
  queries.foldl (fun d q => dinsert q (store q) d) []

def fusedState (store : String → List RAGData) (queries : List String) :
    Except String RRFState :=
  rrfAll (dataDict store queries) ⟨[], []⟩

/-- Stable insertion for descending sort: an element is placed before the
first entry whose score is not strictly greater, which reproduces the
stability of Python sorted(..., reverse=True). -/
def sortInsertDesc (x : PyVal × Frac) : List (PyVal × Frac) → List (PyVal × Frac)
  | [] => [x]
  | y :: ys => if x.2.blt y.2 then y :: sortInsertDesc x ys else x :: y :: ys

def sortScoresDesc : List (PyVal × Frac) → List (PyVal × Frac)
  | [] => []
  | x :: xs => sortInsertDesc x (sortScoresDesc xs)

/-- final_data = [rank_map[id] for id in sorted_ids]; every id in scores was
also written to rank_map by the same loop iteration. -/
def finalData (st : RRFState) : List RAGData :=
  (sortScoresDesc st.scores).filterMap fun p => dfind p.1 st.rankMap

/-- The fused list truncated by len_result = len(data[query]).  After the
query loop the Python variable query holds the LAST element of queries, so
the truncation length is the length of the result list of the last query; on
an empty queries list the variable is unbound (NameError). -/
def truncFused (store : String → List RAGData) (queries : List String) :
    Except String (List RAGData) :=
  match queries.getLast? with
  | none => .error "NameError: name query is not defined"
  | some lastQ =>
    let data := dataDict store queries
    let lenResult := ((dfind lastQ data).getD []).length
    (fusedState store queries).map fun st => (finalData st).take lenResult

/-- One rendered item: the url lookup d.metadata[url] is unguarded. -/
def fmtItem (d : RAGData) : Except String String :=
  match dfind "url" d.metadata with
  | none => .error "KeyError: url"
  | some u => .ok ("#URL:" ++ pyStr u ++ "\n " ++ d.data ++ "\n\n")

def listMapExcept {α β ε : Type} (f : α → Except ε β) : List α → Except ε (List β)
  | [] => .ok []
  | x :: xs => (f x).bind fun y => (listMapExcept f xs).map fun ys => y :: ys

def strIntercalate (sep : String) : List String → String
  | [] => ""
  | [x] => x
  | x :: y :: rest => x ++ sep ++ strIntercalate sep (y :: rest)

/-- The rendered item strings of RagTool.__call__ before joining. -/
def ragToolItems (store : String → List RAGData) (queries : List String) :
    Except String (List String) :=
  (truncFused store queries).bind fun finalTrunc => listMapExcept fmtItem finalTrunc

/-- RagTool.__call__ itself: the joined result string, or the exception. -/
def ragToolCall (store : String → List RAGData) (queries : List String) :
    Except String String :=
  (ragToolItems store queries).map (strIntercalate "\n\n")

/-!
## PostgresPgVectorRAGDatabase (agentutil/ragstore/postgres.py)

The rag_data table (id primary key, data, embedding, metadata jsonb) is
modelled as an association list keyed by the id column.  The embedder is an
abstract pure function, and a fresh UUID4 is an abstract string argument.
save_text runs INSERT ... ON CONFLICT (id) DO UPDATE SET data, embedding,
metadata, i.e. a full-row upsert by id.
-/

structure PgRow where
  data : String
  embedding : List Frac
  metadata : List (String × PyVal)
deriving DecidableEq, Repr

/-- save_text (postgres.py lines 65-91): id_value = str(metadata.get(id,
uuid4())); then upsert of (id, text, embedding, metadata).  The metadata
column receives the caller metadata as passed, WITHOUT the generated id. -/
def pgSaveText (embed : String → List Frac) (fresh : String) (text : String)
    (metadata : List (String × PyVal)) (table : List (String × PgRow)) :
    List (String × PgRow) :=
  let idValue := pyStr ((dfind "id" metadata).getD (.vstr fresh))
  dinsert idValue ⟨text, embed text, metadata⟩ table

/-- query_text (postgres.py lines 93-162), Python half.  The hybrid SQL
query is an external computation; it is abstracted as the list of (id, row)
records it returned, each drawn from the table.  The code then sets
metadata[id] = id on each row, builds RAGData with distance 0 and keeps
items with distance <= max_distance. -/
def pgQueryText (maxDistance : Frac) (results : List (String × PgRow)) : List RAGData :=
  (results.map fun r =>
    RAGData.mk r.2.data ⟨0, 1⟩ (dinsert "id" (.vstr r.1) r.2.metadata)).filter
    fun rd => !(maxDistance.blt rd.distance)

/-- get (postgres.py lines 164-198): WHERE metadata->>key = value for every
attribute, LIMIT number_items_to_return, returning data and the stored
metadata verbatim with distance 0.  Text extraction of a json value is
modelled by pyStr. -/
def pgGet (attributes : List (String × PyVal)) (nitens : Nat)
    (table : List (String × PgRow)) : List RAGData :=
  ((table.filter fun r =>
      attributes.all fun kv =>
        match dfind kv.1 r.2.metadata with
        | none => false
        | some v => pyStr v = pyStr kv.2).take nitens).map
    fun r => RAGData.mk r.2.data ⟨0, 1⟩ r.2.metadata

/-!
## AzureSQLRAGDatabase (agentutil/ragstore/sqlserver.py)

save_text (lines 123-148) computes meta[id] = str(metadata.get(id,
uuid4())) but then runs a plain INSERT INTO dbo.rag_data, whose id column
is the primary key pk__data, plus one INSERT row per embedding component
into dbo.rag_embeddings; there is no MERGE or ON CONFLICT clause, so a
duplicate id raises an integrity error and nothing is written.  The
metadata column stores json.dumps(metadata), the ORIGINAL dict without the
generated id.
-/

structure SqlRow where
  data : String
  embedding : List Frac
  metadata : List (String × PyVal)
deriving DecidableEq, Repr

structure SqlState where
  rag_data : List (String × SqlRow)
  rag_embeddings : List (String × Nat × Frac)
deriving DecidableEq, Repr

/-- OPENJSON enumeration of the embedding vector: (id, key, value) rows. -/
def enumEmb (i : String) : Nat → List Frac → List (String × Nat × Frac)
  | _, [] => []
  | n, q :: rest => (i, n, q) :: enumEmb i (n + 1) rest

def sqlSaveText (embed : String → List Frac) (fresh : String) (text : String)
    (metadata : List (String × PyVal)) (st : SqlState) : Except String SqlState :=
  let e := embed text
  let idValue := pyStr ((dfind "id" metadata).getD (.vstr fresh))
  if (dfind idValue st.rag_data).isSome then
    .error "IntegrityError: violation of PRIMARY KEY constraint pk__data"
  else
    .ok ⟨st.rag_data ++ [(idValue, ⟨text, e, metadata⟩)],
         st.rag_embeddings ++ enumEmb idValue 0 e⟩

/-- query_text (sqlserver.py lines 150-220), Python half.  The hybrid SQL
query is an external computation, abstracted as the list of (id, row)
records it returned, each drawn from the rag_data table.  The code builds
RAGData(data, 0, metadata = {"id": id, **json.loads(metadata)}): a dict
literal whose first key is id bound to the id column, then the stored
metadata entries merged in order (a stored id entry overwrites the value
but keeps the first position, as in a CPython dict literal). -/
def sqlQueryText (results : List (String × SqlRow)) : List RAGData :=
  results.map fun r =>
    RAGData.mk r.2.data ⟨0, 1⟩
      (r.2.metadata.foldl (fun d kv => dinsert kv.1 kv.2 d) [("id", .vstr r.1)])

/-- get (sqlserver.py lines 222-248): JSON_VALUE filter on the stored
metadata column, top number_items_to_return, metadata returned verbatim as
json.loads of the stored column. -/
def sqlGet (attributes : List (String × PyVal)) (nitens : Nat) (st : SqlState) :
    List RAGData :=
  ((st.rag_data.filter fun r =>
      attributes.all fun kv =>
        match dfind kv.1 r.2.metadata with
        | none => false
        | some v => pyStr v = pyStr kv.2).take nitens).map
    fun r => RAGData.mk r.2.data ⟨0, 1⟩ r.2.metadata

/-!
## AzureSearchRAGDatabase (agentutil/ragstore/azureaisearch.py)

Documents sent to the index may hold any JSON-like value, including lists
(the embedding), so a richer value type is used here.  Python type tests
follow CPython semantics: isinstance(value, int) is TRUE for a bool, since
bool is a subclass of int.
-/

inductive PyJson where
  | vstr (s : String)
  | vint (n : Int)
  | vfloat (q : Frac)
  | vbool (b : Bool)
  | vlist (l : List PyJson)
  | vnone

def isinstancePyStr : PyJson → Bool
  | .vstr _ => true
  | _ => false

/-- isinstance(value, int): in Python this also accepts bool values,
because bool is a subclass of int. -/
def isinstancePyInt : PyJson → Bool
  | .vint _ => true
  | .vbool _ => true
  | _ => false

def isinstancePyFloat : PyJson → Bool
  | .vfloat _ => true
  | _ => false

def isinstancePyBool : PyJson → Bool
  | .vbool _ => true
  | _ => false

def isinstancePyList : PyJson → Bool
  | .vlist _ => true
  | _ => false

/-- Azure Search field data types used by the code. -/
inductive AzFieldType where
  | string
  | int32
  | double
  | boolean
  | collectionString
deriving DecidableEq, Repr

/-- _get_azure_search_data_type (azureaisearch.py lines 258-271): the
isinstance chain in source order (str, int, float, bool, list, fallback). -/
def getAzureSearchDataType (value : PyJson) : AzFieldType :=
  if isinstancePyStr value then .string
  else if isinstancePyInt value then .int32
  else if isinstancePyFloat value then .double
  else if isinstancePyBool value then .boolean
  else if isinstancePyList value then .collectionString
  else .string

/-- Python str() for JSON-like values; only string values are ever
rendered by the claims. -/
def pyJsonStr : PyJson → String
  | .vstr s => s
  | .vint n => intToStr n
  | .vbool b => if b then "True" else "False"
  | .vfloat q => intToStr q.num ++ "/" ++ intToStr q.den
  | .vlist _ => "<list>"
  | .vnone => "None"

/-- The schema of the index: field name to field type. -/
abbrev AzSchema := List (String × AzFieldType)

/-- _update_fields (azureaisearch.py lines 232-256): for every key of the
document missing from the current schema, append a SimpleField whose type
is inferred from the value; if no key is missing the schema is unchanged. -/
def azUpdateFields (doc : List (String × PyJson)) (schema : AzSchema) : AzSchema :=
  schema ++ (doc.filter fun kv => (dfind kv.1 schema).isNone).map
    fun kv => (kv.1, getAzureSearchDataType kv.2)

/-- The document d assembled by save_text (azureaisearch.py lines 96-114):
a copy of the metadata, then d[data] = text, d[embedding] = vector, and
d[id] = str(metadata[id]) or a fresh uuid4 string. -/
def azBuildDoc (embed : String → List Frac) (fresh : String) (text : String)
    (metadata : List (String × PyJson)) : List (String × PyJson) :=
  let d := dinsert "data" (.vstr text) metadata
  let d := dinsert "embedding" (.vlist ((embed text).map .vfloat)) d
  dinsert "id"
    (match dfind "id" metadata with
     | some v => .vstr (pyJsonStr v)
     | none => .vstr fresh) d

/-- save_text (azureaisearch.py lines 116-125): attempt the upload; on an
HttpResponseError whose text holds "does not exist on type", migrate the
schema with _update_fields and retry the SAME write once, propagating the
outcome of the retry verbatim; any other error is re-raised.  The service
call is an oracle from (document, schema) to outcome; the second component
of the result counts the write attempts performed. -/
def azSaveText (attempt : List (String × PyJson) → AzSchema → Except String Unit)
    (embed : String → List Frac) (fresh : String) (text : String)
    (metadata : List (String × PyJson)) (schema : AzSchema) :
    Except String Unit × Nat :=
  let d := azBuildDoc embed fresh text metadata
  match attempt d schema with
  | .ok _ => (.ok (), 1)
  | .error e =>
    if strContains e "does not exist on type" then
      (attempt d (azUpdateFields d schema), 2)
    else (.error e, 1)

/-!
## instantiate_from_config (agentutil/__init__.py lines 9-28)

Descriptor metadata dicts live on an explicit heap of dict cells, so that
deepcopy and aliasing are observable: a ConfigObject holds the ADDRESS of
its metadata dict, params = deepcopy(config.metadata) allocates a fresh
cell, and reference resolution mutates only that fresh cell.  Recursion
depth is modelled by fuel: running out of fuel is the Python RecursionError
from unbounded recursion.  The code has no cycle detection and no
CyclicReference error of any kind.
-/

abbrev Addr := Nat

structure ConfigObject where
  type : String
  name : String
  instanceName : String
  metadata : Addr
  created : Option Int := none
deriving DecidableEq, Repr

/-- A constructed object: the class looked up via the module and instance
name, applied to its resolved keyword parameters (a heap cell). -/
structure ObjValue where
  cls : String
  params : Addr
deriving DecidableEq, Repr

/-- A value in a metadata dict during resolution: either a plain (JSON)
value as persisted, or a live object substituted for a reference token. -/
inductive RVal where
  | raw (v : PyVal)
  | obj (o : ObjValue)
deriving DecidableEq, Repr

abbrev PyDict := List (String × RVal)

structure Heap where
  cells : List PyDict
deriving DecidableEq, Repr

def Heap.read (h : Heap) (a : Addr) : Option PyDict := h.cells.get? a

/-- Allocation appends a cell and returns its fresh address. -/
def Heap.alloc (h : Heap) (d : PyDict) : Heap × Addr :=
  (⟨h.cells ++ [d]⟩, h.cells.length)

def Heap.write (h : Heap) (a : Addr) (d : PyDict) : Heap := ⟨h.cells.set a d⟩

abbrev ConfigStore := List ((String × String) × ConfigObject)

/-- BaseStore.get_config: the descriptor under (type, name), or None. -/
def get_config (store : ConfigStore) (t n : String) : Option ConfigObject :=
  dfind (t, n) store

/-- The reference-token test of the code: a str value that starts with
the token head and ends with the token tail. -/
def isRefToken : RVal → Option String
  | .raw (.vstr s) =>
    if pyStartsWith s "#|:" && pyEndsWith s ":|#" then some s else none
  | _ => none

inductive InstErr where
  | recursionError
  | attributeErrorNone
  | indexError
  | invalidAddr
deriving DecidableEq, Repr

/-- The loop over params.keys(): a reference token is parsed with
s.split(":"), the referenced descriptor fetched (a missing one comes back
as None and the recursive call dereferencing it raises AttributeError), and
the recursively constructed object substituted for the token; other values
pass through.  The recursive constructor is a parameter so that the
recursion is accounted to the fuel of instantiate alone. -/
def resolveParamsWith
    (inst : ConfigObject → Heap → Except InstErr (ObjValue × Heap))
    (store : ConfigStore) :
    List (String × RVal) → Heap → Except InstErr (List (String × RVal) × Heap)
  | [], h => .ok ([], h)
  | (k, v) :: rest, h =>
    match isRefToken v with
    | none =>
      (resolveParamsWith inst store rest h).map fun p => ((k, v) :: p.1, p.2)
    | some s =>
      let parts := pySplitColon s
      match parts.get? 1, parts.get? 2 with
      | some rt, some rn =>
        match get_config store rt rn with
        | none => .error .attributeErrorNone
        | some cfg =>
          (inst cfg h).bind fun r =>
            (resolveParamsWith inst store rest r.2).map fun p =>
              ((k, .obj r.1) :: p.1, p.2)
      | _, _ => .error .indexError

/-- instantiate_from_config: look up the class, deepcopy the metadata into
a fresh cell, resolve reference tokens recursively (depth bounded by fuel,
as the Python call stack is), construct the class on the resolved params.
Exhausted fuel is the RecursionError of unbounded recursion. -/
def instantiate (store : ConfigStore) : Nat → ConfigObject → Heap →
    Except InstErr (ObjValue × Heap)
  | 0, _, _ => .error .recursionError
  | fuel + 1, cfg, h =>
    match h.read cfg.metadata with
    | none => .error .invalidAddr
    | some d =>
      let alloced := h.alloc d
      (resolveParamsWith (instantiate store fuel) store d alloced.1).bind fun p =>
        .ok (⟨cfg.instanceName, alloced.2⟩, p.2.write alloced.2 p.1)

/-!
## JSONStore.store_config (agentutil/datastore/json.py lines 40-62)

The method builds the record (with created defaulted by Python truthiness
to the current epoch) and then runs open(filepath, "w", "utf-8").  The
third positional argument of the Python builtin open is the integer
buffering mode, so passing the string "utf-8" raises TypeError before
anything is written; the trailing return obj hands back the ORIGINAL
object, whose created field was never populated.
-/

structure FileRec where
  instanceName : String
  metadata : PyDict
  created : Int
deriving DecidableEq, Repr

abbrev FileSys := List (String × FileRec)

/-- The Python builtin open restricted to what the call site exercises: the
third positional argument must be an int (buffering), else TypeError. -/
def pyOpen (path mode : String) (buffering : PyVal) : Except String Unit :=
  match path, mode, buffering with
  | _, _, .vint _ => .ok ()
  | _, _, _ => .error "TypeError: an integer is required (got type str)"

/-- JSONStore.store_config: filename type_name.json, record with created
defaulted (Python truthiness: None and 0 are both falsy), file opened with
open(filepath, w, utf-8), record written, the original obj returned. -/
def store_config (now : Int) (h : Heap) (obj : ConfigObject) (fs : FileSys) :
    Except String (ConfigObject × FileSys) :=
  let filename := obj.type ++ "_" ++ obj.name ++ ".json"
  let createdVal : Int :=
    match obj.created with
    | some c => if c = 0 then now else c
    | none => now
  (pyOpen filename "w" (.vstr "utf-8")).bind fun _ =>
    .ok (obj, dinsert filename ⟨obj.instanceName, (h.read obj.metadata).getD [], createdVal⟩ fs)

/-!
## Concrete fixtures used by witnesses and counterexamples
-/

/-- An embedder returning a one-component vector for every text. -/
def embedOne : String → List Frac := fun _ => [⟨1, 1⟩]

/-- Store for the truncation counterexample: query A returns one item,
query B returns two. -/
def s2store : String → List RAGData := fun q =>
  if q = "A" then [⟨"dx", ⟨0, 1⟩, [("id", .vstr "x"), ("url", .vstr "ux")]⟩]
  else if q = "B" then
    [⟨"dy", ⟨0, 1⟩, [("id", .vstr "y"), ("url", .vstr "uy")]⟩,
     ⟨"dz", ⟨0, 1⟩, [("id", .vstr "z"), ("url", .vstr "uz")]⟩]
  else []

/-- Store realising the fusion example of the specification: query A gives
id1 then id2, query B gives id2 then id3. -/
def s8store : String → List RAGData := fun q =>
  if q = "A" then
    [⟨"d1", ⟨0, 1⟩, [("id", .vstr "id1"), ("url", .vstr "u1")]⟩,
     ⟨"d2", ⟨0, 1⟩, [("id", .vstr "id2"), ("url", .vstr "u2")]⟩]
  else if q = "B" then
    [⟨"d2", ⟨0, 1⟩, [("id", .vstr "id2"), ("url", .vstr "u2")]⟩,
     ⟨"d3", ⟨0, 1⟩, [("id", .vstr "id3"), ("url", .vstr "u3")]⟩]
  else []

/-- The fusion state computed by RagTool on s8store (checked by decide in
the proofs that use it). -/
def st8 : RRFState :=
  ⟨[(PyVal.vstr "id1", ⟨1, 61⟩), (PyVal.vstr "id2", ⟨123, 3782⟩), (PyVal.vstr "id3", ⟨1, 62⟩)],
   [(PyVal.vstr "id1", ⟨"d1", ⟨0, 1⟩, [("id", .vstr "id1"), ("url", .vstr "u1")]⟩),
    (PyVal.vstr "id2", ⟨"d2", ⟨0, 1⟩, [("id", .vstr "id2"), ("url", .vstr "u2")]⟩),
    (PyVal.vstr "id3", ⟨"d3", ⟨0, 1⟩, [("id", .vstr "id3"), ("url", .vstr "u3")]⟩)]⟩

/-- Store whose single item has an id but no url. -/
def s10store : String → List RAGData := fun q =>
  if q = "Q" then [⟨"doc", ⟨0, 1⟩, [("id", .vstr "a")]⟩] else []

/-- A descriptor whose metadata references the descriptor itself. -/
def selfCfg : ConfigObject := ⟨"ragstore", "selfref", "PostgresStore", 0, none⟩

def selfStore : ConfigStore := [(("ragstore", "selfref"), selfCfg)]

def selfDict : PyDict := [("embedding_function", .raw (.vstr "#|:ragstore:selfref:|#"))]

def selfHeap : Heap := ⟨[selfDict]⟩

/-- Oracle for the retry witness: every upload against an empty schema
fails with a schema error, every upload against a migrated (non-empty)
schema fails with an unrelated error. -/
def attemptW : List (String × PyJson) → AzSchema → Except String Unit := fun _ s =>
  if s.length = 0 then .error "field flag does not exist on type doc" else .error "boom"

def cfgB9 : ConfigObject := ⟨"embedding", "ada", "OpenAIEmbedding", 1, none⟩

def cfgA9 : ConfigObject := ⟨"ragstore", "pg", "PostgresStore", 0, none⟩

def store9 : ConfigStore := [(("ragstore", "pg"), cfgA9), (("embedding", "ada"), cfgB9)]

def heap9 : Heap :=
  ⟨[[("embedding_function", .raw (.vstr "#|:embedding:ada:|#")),
     ("db_name", .raw (.vstr "news"))],
    [("model", .raw (.vstr "text-embedding-ada-002"))]]⟩

/-- The heap after instantiating cfgA9 on heap9: the two original cells
unchanged, then the resolved copy of cfgA9 metadata, then the copy of
cfgB9 metadata. -/
def heap9Final : Heap :=
  ⟨[[("embedding_function", .raw (.vstr "#|:embedding:ada:|#")),
     ("db_name", .raw (.vstr "news"))],
    [("model", .raw (.vstr "text-embedding-ada-002"))],
    [("embedding_function", .obj ⟨"OpenAIEmbedding", 3⟩),
     ("db_name", .raw (.vstr "news"))],
    [("model", .raw (.vstr "text-embedding-ada-002"))]]⟩

/-- h2 is the heap h after some allocations, with every pre-existing cell
unchanged. -/
def heapExtends (h h2 : Heap) : Prop :=
  h.cells.length ≤ h2.cells.length ∧ ∀ a, a < h.cells.length → h2.read a = h.read a

/-!
## Helper lemmas about the dict and heap primitives
-/

lemma dfind_dinsert_self {κ β : Type} [DecidableEq κ] (k : κ) (v : β) :
    ∀ l : List (κ × β), dfind k (dinsert k v l) = some v := by
  intro l
  induction l with
  | nil => simp [dinsert, dfind]
  | cons p rest ih =>
    by_cases hk : k = p.1
    · simp [dinsert, dfind, hk]
    · simp [dinsert, dfind, hk, ih]

lemma dfind_dinsert_ne {κ β : Type} [DecidableEq κ] (k j : κ) (v : β) (hkj : k ≠ j) :
    ∀ l : List (κ × β), dfind k (dinsert j v l) = dfind k l := by
  intro l
  induction l with
  | nil => simp [dinsert, dfind, hkj]
  | cons p rest ih =>
    by_cases hj : j = p.1
    · subst hj
      simp [dinsert, dfind, hkj]
    · by_cases hk : k = p.1 <;> simp [dinsert, dfind, hj, hk, ih]

lemma countKey_dinsert_self {κ β : Type} [DecidableEq κ] (k : κ) (v : β) :
    ∀ l : List (κ × β), countKey k (dinsert k v l) = max 1 (countKey k l) := by
  intro l
  induction l with
  | nil => simp [dinsert, countKey]
  | cons p rest ih =>
    by_cases hk : k = p.1
    · simp [dinsert, countKey, hk]
    · simp [dinsert, countKey, hk, ih]

lemma dfind_foldl_dinsert_isSome {κ β : Type} [DecidableEq κ] (k : κ) :
    ∀ (meta init : List (κ × β)), (dfind k init).isSome = true →
      (dfind k (meta.foldl (fun d kv => dinsert kv.1 kv.2 d) init)).isSome = true := by
  intro meta
  induction meta with
  | nil => intro init h; exact h
  | cons kv rest ih =>
    intro init h
    rw [List.foldl_cons]
    refine ih (dinsert kv.1 kv.2 init) ?_
    by_cases hk : k = kv.1
    · subst hk
      rw [dfind_dinsert_self]
      rfl
    · rw [dfind_dinsert_ne k kv.1 kv.2 hk]
      exact h

lemma dfind_foldl_dinsert_none {κ β : Type} [DecidableEq κ] (k : κ) :
    ∀ (meta init : List (κ × β)), dfind k meta = none →
      dfind k (meta.foldl (fun d kv => dinsert kv.1 kv.2 d) init) = dfind k init := by
  intro meta
  induction meta with
  | nil => intro init _; rfl
  | cons kv rest ih =>
    obtain ⟨k2, v2⟩ := kv
    intro init h
    by_cases hk : k = k2
    · rw [show dfind k ((k2, v2) :: rest) = some v2 from by simp [dfind, hk]] at h
      cases h
    · have hrest : dfind k rest = none := by
        rw [show dfind k ((k2, v2) :: rest) = dfind k rest from by simp [dfind, hk]] at h
        exact h
      rw [List.foldl_cons, ih (dinsert k2 v2 init) hrest,
        dfind_dinsert_ne k k2 v2 hk]

lemma dataDict_foldl_find (store : String → List RAGData) (q : String) :
    ∀ (qs : List String) (d : List (String × List RAGData)),
      dfind q (qs.foldl (fun acc q2 => dinsert q2 (store q2) acc) d)
        = if q ∈ qs then some (store q) else dfind q d := by
  intro qs
  induction qs with
  | nil => intro d; simp
  | cons x rest ih =>
    intro d
    by_cases hq : q ∈ rest
    · simp [List.foldl_cons, ih, hq]
    · by_cases hx : q = x
      · subst hx
        simp [List.foldl_cons, ih, hq, dfind_dinsert_self]
      · simp [List.foldl_cons, ih, hq, hx, dfind_dinsert_ne q x _ hx]

lemma dataDict_find_last (store : String → List RAGData) (q : String)
    (qs : List String) (hq : q ∈ qs) :
    dfind q (dataDict store qs) = some (store q) := by
  unfold dataDict
  rw [dataDict_foldl_find store q qs []]
  simp [hq]

lemma mem_of_getLastQ {α : Type} : ∀ (l : List α) (a : α), l.getLast? = some a → a ∈ l := by
  intro l
  induction l with
  | nil => intro a h; cases h
  | cons x rest ih =>
    intro a h
    cases rest with
    | nil =>
      simp [List.getLast?] at h
      simp [h]
    | cons y rest2 =>
      rw [List.getLast?_cons_cons] at h
      exact List.mem_cons_of_mem x (ih a h)

lemma listMapExcept_ok_length {α β ε : Type} (f : α → Except ε β) :
    ∀ (l : List α) (ys : List β), listMapExcept f l = .ok ys → ys.length = l.length := by
  intro l
  induction l with
  | nil =>
    intro ys h
    simp [listMapExcept] at h
    simp [← h]
  | cons x rest ih =>
    intro ys h
    simp only [listMapExcept] at h
    cases hfx : f x with
    | error e => rw [hfx] at h; simp [Except.bind] at h
    | ok y =>
      rw [hfx] at h
      simp only [Except.bind] at h
      cases hrest : listMapExcept f rest with
      | error e => rw [hrest] at h; simp [Except.map] at h
      | ok zs =>
        rw [hrest] at h
        simp only [Except.map, Except.ok.injEq] at h
        rw [← h]
        simp [ih zs hrest]

lemma listMapExcept_ok_mem_isSome :
    ∀ (l : List RAGData) (ys : List String), listMapExcept fmtItem l = .ok ys →
      ∀ r ∈ l, (dfind "url" r.metadata).isSome = true := by
  intro l
  induction l with
  | nil => intro ys _ r hr; cases hr
  | cons x rest ih =>
    intro ys h r hr
    simp only [listMapExcept] at h
    cases hfx : fmtItem x with
    | error e => rw [hfx] at h; simp [Except.bind] at h
    | ok y =>
      rw [hfx] at h
      simp only [Except.bind] at h
      cases hrest : listMapExcept fmtItem rest with
      | error e => rw [hrest] at h; simp [Except.map] at h
      | ok zs =>
        rcases List.mem_cons.mp hr with he | hm
        · subst he
          unfold fmtItem at hfx
          cases hu : dfind "url" r.metadata with
          | none => rw [hu] at hfx; cases hfx
          | some u => simp
        · exact ih zs hrest r hm

lemma listMapExcept_error_of_missing :
    ∀ l : List RAGData, (∃ r ∈ l, dfind "url" r.metadata = none) →
      listMapExcept fmtItem l = .error "KeyError: url" := by
  intro l
  induction l with
  | nil => rintro ⟨r, hr, _⟩; cases hr
  | cons x rest ih =>
    rintro ⟨r, hr, hu⟩
    simp only [listMapExcept]
    rcases List.mem_cons.mp hr with he | hm
    · subst he
      simp [fmtItem, hu, Except.bind]
    · cases hux : dfind "url" x.metadata with
      | none => simp [fmtItem, hux, Except.bind]
      | some u => simp [fmtItem, hux, Except.bind, ih ⟨r, hm, hu⟩, Except.map]

lemma listMapExcept_ok_of_all :
    ∀ l : List RAGData, (∀ r ∈ l, (dfind "url" r.metadata).isSome = true) →
      ∃ ys, listMapExcept fmtItem l = .ok ys := by
  intro l
  induction l with
  | nil => intro _; exact ⟨[], rfl⟩
  | cons x rest ih =>
    intro hall
    have hx := hall x (List.mem_cons_self x rest)
    cases hu : dfind "url" x.metadata with
    | none => rw [hu] at hx; cases hx
    | some u =>
      rcases ih (fun r hr => hall r (List.mem_cons_of_mem x hr)) with ⟨ys, hys⟩
      exact ⟨("#URL:" ++ pyStr u ++ "\n " ++ x.data ++ "\n\n") :: ys,
        by simp [listMapExcept, fmtItem, hu, Except.bind, hys, Except.map]⟩

lemma listGetAppendLt {α : Type} :
    ∀ (l1 l2 : List α) (a : Nat), a < l1.length → (l1 ++ l2).get? a = l1.get? a := by
  intro l1
  induction l1 with
  | nil => intro l2 a ha; cases ha
  | cons x rest ih =>
    intro l2 a ha
    cases a with
    | zero => rfl
    | succ n => exact ih l2 n (Nat.lt_of_succ_lt_succ ha)

lemma listGetSetNe {α : Type} :
    ∀ (l : List α) (i j : Nat) (v : α), i ≠ j → (l.set i v).get? j = l.get? j := by
  intro l
  induction l with
  | nil => intro i j v _; rfl
  | cons x rest ih =>
    intro i j v hij
    cases i with
    | zero =>
      cases j with
      | zero => exact absurd rfl hij
      | succ m => rfl
    | succ n =>
      cases j with
      | zero => rfl
      | succ m => exact ih n m v fun e => hij (by rw [e])

lemma Heap.read_alloc_lt (h : Heap) (d : PyDict) (a : Addr) (ha : a < h.cells.length) :
    (h.alloc d).1.read a = h.read a := by
  simp only [Heap.alloc, Heap.read]
  exact listGetAppendLt h.cells [d] a ha

lemma Heap.read_write_ne (h : Heap) (b : Addr) (d : PyDict) (a : Addr) (hab : b ≠ a) :
    (h.write b d).read a = h.read a := by
  simp only [Heap.write, Heap.read]
  exact listGetSetNe h.cells b a d hab

lemma Heap.read_some_lt (h : Heap) (a : Addr) (d : PyDict) (hr : h.read a = some d) :
    a < h.cells.length := by
  by_contra hc
  rw [Heap.read, List.get?_eq_none.mpr (Nat.le_of_not_lt hc)] at hr
  cases hr

lemma heapExtends_refl (h : Heap) : heapExtends h h := ⟨Nat.le_refl _, fun _ _ => rfl⟩

lemma heapExtends_trans {h1 h2 h3 : Heap} (a : heapExtends h1 h2) (b : heapExtends h2 h3) :
    heapExtends h1 h3 :=
  ⟨Nat.le_trans a.1 b.1, fun x hx => (b.2 x (Nat.lt_of_lt_of_le hx a.1)).trans (a.2 x hx)⟩

lemma heapExtends_alloc (h : Heap) (d : PyDict) : heapExtends h (h.alloc d).1 := by
  refine ⟨?_, fun a ha => Heap.read_alloc_lt h d a ha⟩
  simp [Heap.alloc]

lemma resolveParamsWith_extends
    (inst : ConfigObject → Heap → Except InstErr (ObjValue × Heap))
    (store : ConfigStore)
    (hinst : ∀ cfg h r, inst cfg h = .ok r → heapExtends h r.2) :
    ∀ (l : List (String × RVal)) (h : Heap) (p : List (String × RVal) × Heap),
      resolveParamsWith inst store l h = .ok p → heapExtends h p.2 := by
  intro l
  induction l with
  | nil =>
    intro h p hres
    simp only [resolveParamsWith] at hres
    cases hres
    exact heapExtends_refl h
  | cons kv rest ih =>
    intro h p hres
    simp only [resolveParamsWith] at hres
    cases htok : isRefToken kv.2 with
    | none =>
      simp only [htok] at hres
      cases hrest : resolveParamsWith inst store rest h with
      | error e =>
        simp only [hrest, Except.map] at hres
        exact Except.noConfusion hres
      | ok p0 =>
        simp only [hrest, Except.map, Except.ok.injEq] at hres
        rw [← hres]
        exact ih h p0 hrest
    | some s =>
      simp only [htok] at hres
      cases hp1 : (pySplitColon s).get? 1 with
      | none =>
        simp only [hp1] at hres
        exact Except.noConfusion hres
      | some rt =>
        cases hp2 : (pySplitColon s).get? 2 with
        | none =>
          simp only [hp1, hp2] at hres
          exact Except.noConfusion hres
        | some rn =>
          simp only [hp1, hp2] at hres
          cases hcfg : get_config store rt rn with
          | none =>
            simp only [hcfg] at hres
            exact Except.noConfusion hres
          | some cfg =>
            simp only [hcfg] at hres
            cases hinstr : inst cfg h with
            | error e =>
              simp only [hinstr, Except.bind] at hres
              exact Except.noConfusion hres
            | ok r =>
              simp only [hinstr, Except.bind] at hres
              cases hrest : resolveParamsWith inst store rest r.2 with
              | error e =>
                simp only [hrest, Except.map] at hres
                exact Except.noConfusion hres
              | ok p0 =>
                simp only [hrest, Except.map, Except.ok.injEq] at hres
                rw [← hres]
                exact heapExtends_trans (hinst cfg h r hinstr) (ih r.2 p0 hrest)

lemma instantiate_extends (store : ConfigStore) :
    ∀ (fuel : Nat) (cfg : ConfigObject) (h : Heap) (r : ObjValue × Heap),
      instantiate store fuel cfg h = .ok r →
      heapExtends h r.2 ∧ r.1.params = h.cells.length := by
  intro fuel
  induction fuel with
  | zero => intro cfg h r hok; cases hok
  | succ n ih =>
    intro cfg h r hok
    simp only [instantiate] at hok
    cases hread : h.read cfg.metadata with
    | none =>
      simp only [hread] at hok
      exact Except.noConfusion hok
    | some d =>
      simp only [hread] at hok
      cases hres : resolveParamsWith (instantiate store n) store d (h.alloc d).1 with
      | error e =>
        simp only [hres, Except.bind] at hok
        exact Except.noConfusion hok
      | ok p =>
        simp only [hres, Except.bind, Except.ok.injEq] at hok
        have hext1 : heapExtends (h.alloc d).1 p.2 :=
          resolveParamsWith_extends (instantiate store n) store
            (fun cfg2 h2 r2 hr2 => (ih cfg2 h2 r2 hr2).1) d (h.alloc d).1 p hres
        have hlen : h.cells.length < p.2.cells.length := by
          have := hext1.1
          simp [Heap.alloc] at this
          omega
        constructor
        · rw [← hok]
          constructor
          · simp only [Heap.write, List.length_set]
            omega
          · intro a ha
            have hne : (h.alloc d).2 ≠ a := Nat.ne_of_gt ha
            rw [Heap.read_write_ne p.2 (h.alloc d).2 p.1 a hne]
            have h1 := hext1.2 a (by
              have he1 : (h.alloc d).1.cells.length = h.cells.length + 1 := by
                simp [Heap.alloc]
              omega)
            rw [h1]
            exact Heap.read_alloc_lt h d a ha
        · rw [← hok]
          simp [Heap.alloc]

lemma instantiate_selfloop :
    ∀ (fuel : Nat) (h : Heap), h.read 0 = some selfDict →
      instantiate selfStore fuel selfCfg h = .error .recursionError := by
  intro fuel
  induction fuel with
  | zero => intro h _; rfl
  | succ n ih =>
    intro h hh
    have hstep : ∀ h2 : Heap,
        resolveParamsWith (instantiate selfStore n) selfStore selfDict h2
          = (instantiate selfStore n selfCfg h2).bind fun r =>
              (resolveParamsWith (instantiate selfStore n) selfStore [] r.2).map fun p =>
                (("embedding_function", .obj r.1) :: p.1, p.2) := fun _ => rfl
    have halloc : ((h.alloc selfDict).1).read 0 = some selfDict := by
      rw [Heap.read_alloc_lt h selfDict 0 (Heap.read_some_lt h 0 selfDict hh)]
      exact hh
    simp only [instantiate]
    have hm : selfCfg.metadata = 0 := rfl
    rw [hm, hh]
    simp only [hstep, ih _ halloc, Except.bind]

/-!
## Claim theorems
-/

/-- C1 (amended): saving the same caller-supplied id twice with different
content is an upsert on the Postgres backend — exactly one row under that
id afterwards, holding the content, embedding and metadata of the second
call — while on the Azure SQL backend, whose save_text runs a plain INSERT
against the primary-key column, a second save with an id already present
fails with a primary-key integrity error instead of replacing the row. -/
theorem save_text_upsert_postgres_pk_error_sqlserver
    (embed : String → List Frac) (f1 f2 t1 t2 : String)
    (m1 m2 : List (String × PyVal)) (v : PyVal)
    (table : List (String × PgRow)) (st : SqlState)
    (h1 : dfind "id" m1 = some v) (h2 : dfind "id" m2 = some v)
    (hc : countKey (pyStr v) table ≤ 1)
    (hs : (dfind (pyStr v) st.rag_data).isSome = true) :
    dfind (pyStr v) (pgSaveText embed f2 t2 m2 (pgSaveText embed f1 t1 m1 table))
      = some ⟨t2, embed t2, m2⟩
    ∧ countKey (pyStr v) (pgSaveText embed f2 t2 m2 (pgSaveText embed f1 t1 m1 table)) = 1
    ∧ sqlSaveText embed f2 t2 m2 st
      = .error "IntegrityError: violation of PRIMARY KEY constraint pk__data" := by
  have e1 : pgSaveText embed f1 t1 m1 table
      = dinsert (pyStr v) ⟨t1, embed t1, m1⟩ table := by
    unfold pgSaveText
    rw [h1]
    rfl
  have e2 : ∀ tb : List (String × PgRow), pgSaveText embed f2 t2 m2 tb
      = dinsert (pyStr v) ⟨t2, embed t2, m2⟩ tb := by
    intro tb
    unfold pgSaveText
    rw [h2]
    rfl
  refine ⟨?_, ?_, ?_⟩
  · rw [e1, e2]
    exact dfind_dinsert_self _ _ _
  · rw [e1, e2, countKey_dinsert_self, countKey_dinsert_self]
    omega
  · unfold sqlSaveText
    rw [h2]
    simp only [Option.getD]
    rw [hs]
    rfl

theorem save_text_upsert_postgres_pk_error_sqlserver_witness :
    dfind "id" [("id", PyVal.vstr "d1")] = some (PyVal.vstr "d1")
    ∧ dfind (pyStr (PyVal.vstr "d1"))
        (pgSaveText embedOne "u2" "two" [("id", PyVal.vstr "d1")]
          (pgSaveText embedOne "u1" "one" [("id", PyVal.vstr "d1")] []))
        = some ⟨"two", [⟨1, 1⟩], [("id", PyVal.vstr "d1")]⟩
    ∧ sqlSaveText embedOne "u2" "two" [("id", PyVal.vstr "d1")]
        ⟨[("d1", ⟨"one", [⟨1, 1⟩], [("id", PyVal.vstr "d1")]⟩)], [("d1", 0, ⟨1, 1⟩)]⟩
        = .error "IntegrityError: violation of PRIMARY KEY constraint pk__data" :=
  ⟨by decide,
   (save_text_upsert_postgres_pk_error_sqlserver embedOne "u1" "u2" "one" "two"
      [("id", PyVal.vstr "d1")] [("id", PyVal.vstr "d1")] (PyVal.vstr "d1") []
      ⟨[("d1", ⟨"one", [⟨1, 1⟩], [("id", PyVal.vstr "d1")]⟩)], [("d1", 0, ⟨1, 1⟩)]⟩
      (by decide) (by decide) (by decide) (by decide)).1,
   (save_text_upsert_postgres_pk_error_sqlserver embedOne "u1" "u2" "one" "two"
      [("id", PyVal.vstr "d1")] [("id", PyVal.vstr "d1")] (PyVal.vstr "d1") []
      ⟨[("d1", ⟨"one", [⟨1, 1⟩], [("id", PyVal.vstr "d1")]⟩)], [("d1", 0, ⟨1, 1⟩)]⟩
      (by decide) (by decide) (by decide) (by decide)).2.2⟩

/-- C1 counterexample: on the Azure SQL backend a first save of id d1
succeeds and a second save of the same id with different content raises a
primary-key integrity error, refuting upsert-for-every-backend. -/
theorem sqlserver_second_save_pk_violation_cex :
    sqlSaveText embedOne "u1" "one" [("id", PyVal.vstr "d1")] ⟨[], []⟩
      = .ok ⟨[("d1", ⟨"one", [⟨1, 1⟩], [("id", PyVal.vstr "d1")]⟩)], [("d1", 0, ⟨1, 1⟩)]⟩
    ∧ sqlSaveText embedOne "u2" "two" [("id", PyVal.vstr "d1")]
        ⟨[("d1", ⟨"one", [⟨1, 1⟩], [("id", PyVal.vstr "d1")]⟩)], [("d1", 0, ⟨1, 1⟩)]⟩
      = .error "IntegrityError: violation of PRIMARY KEY constraint pk__data" :=
  ⟨by decide, by decide⟩

/-- C2 (amended): the fused ranking returned by RagTool.__call__ is
truncated to the length of the result list produced for the LAST query
evaluated (the Python loop variable after the loop), so the rendered output
holds at most that many items. -/
theorem ragtool_truncates_to_last_query_length
    (store : String → List RAGData) (queries : List String) (lastQ : String)
    (items : List String)
    (hlast : queries.getLast? = some lastQ)
    (hok : ragToolItems store queries = .ok items) :
    items.length ≤ (store lastQ).length := by
  unfold ragToolItems truncFused at hok
  simp only [hlast] at hok
  cases hfs : fusedState store queries with
  | error e =>
    simp only [hfs, Except.map, Except.bind] at hok
    exact Except.noConfusion hok
  | ok st =>
    simp only [hfs, Except.map, Except.bind] at hok
    have hlen := listMapExcept_ok_length fmtItem _ items hok
    rw [hlen]
    have hfind : dfind lastQ (dataDict store queries) = some (store lastQ) :=
      dataDict_find_last store lastQ queries (mem_of_getLastQ queries lastQ hlast)
    rw [hfind]
    simp only [Option.getD]
    rw [List.length_take]
    exact Nat.min_le_left _ _

theorem ragtool_truncates_to_last_query_length_witness :
    (["A", "B"] : List String).getLast? = some "B"
    ∧ ragToolItems s2store ["A", "B"] = .ok ["#URL:ux\n dx\n\n", "#URL:uy\n dy\n\n"]
    ∧ (["#URL:ux\n dx\n\n", "#URL:uy\n dy\n\n"] : List String).length ≤ (s2store "B").length :=
  ⟨by decide, by decide,
   ragtool_truncates_to_last_query_length s2store ["A", "B"] "B"
     ["#URL:ux\n dx\n\n", "#URL:uy\n dy\n\n"] (by decide) (by decide)⟩

/-- C2 counterexample: with query A returning one item and query B (the
last query) returning two, the rendered fused output holds two items,
exceeding the length of the FIRST query result list, so the output is not
truncated to the first query length. -/
theorem ragtool_first_query_truncation_cex :
    ragToolItems s2store ["A", "B"] = .ok ["#URL:ux\n dx\n\n", "#URL:uy\n dy\n\n"]
    ∧ (s2store "A").length = 1
    ∧ ¬ ((["#URL:ux\n dx\n\n", "#URL:uy\n dy\n\n"] : List String).length ≤ (s2store "A").length) :=
  ⟨by decide, by decide, by decide⟩

/-- C3 (amended): items produced by the Python half of query_text always
carry an id metadata key that is stable for the same stored document — the
Postgres backend sets metadata[id] to the id column of the source row, and
the SQL Server backend builds the dict literal starting from id bound to
the id column, so a document stored without a caller id also comes back
from query_text with the id column under id — whereas get on both backends
returns the stored metadata json verbatim, which holds an id only when the
caller saved one. -/
theorem retrieved_item_id_attribute
    (maxDistance : Frac) (results : List (String × PgRow))
    (sresults : List (String × SqlRow))
    (attributes sattributes : List (String × PyVal)) (nitens snitens : Nat)
    (table : List (String × PgRow)) (st : SqlState)
    (r rg rs rsg : RAGData)
    (hq : r ∈ pgQueryText maxDistance results)
    (hg : rg ∈ pgGet attributes nitens table)
    (hsq : rs ∈ sqlQueryText sresults)
    (hsg : rsg ∈ sqlGet sattributes snitens st) :
    (∃ i, dfind "id" r.metadata = some (.vstr i) ∧ ∃ pr, (i, pr) ∈ results)
    ∧ (∃ i pr, (i, pr) ∈ table ∧ rg.metadata = pr.metadata ∧ rg.data = pr.data)
    ∧ ((dfind "id" rs.metadata).isSome = true
        ∧ ∃ i pr, (i, pr) ∈ sresults ∧ rs.data = pr.data
            ∧ (dfind "id" pr.metadata = none → dfind "id" rs.metadata = some (.vstr i)))
    ∧ ∃ i pr, (i, pr) ∈ st.rag_data ∧ rsg.metadata = pr.metadata ∧ rsg.data = pr.data := by
  refine ⟨?_, ?_, ?_, ?_⟩
  · unfold pgQueryText at hq
    rcases List.mem_filter.mp hq with ⟨hmem, _⟩
    rcases List.mem_map.mp hmem with ⟨⟨i, pr⟩, hin, heq⟩
    refine ⟨i, ?_, pr, hin⟩
    rw [← heq]
    exact dfind_dinsert_self _ _ _
  · unfold pgGet at hg
    rcases List.mem_map.mp hg with ⟨⟨i, pr⟩, hin, heq⟩
    have hin2 : (i, pr) ∈ table :=
      (List.mem_filter.mp (List.take_subset _ _ hin)).1
    exact ⟨i, pr, hin2, by rw [← heq], by rw [← heq]⟩
  · unfold sqlQueryText at hsq
    rcases List.mem_map.mp hsq with ⟨⟨i, pr⟩, hin, heq⟩
    have hinit : dfind "id" [("id", PyVal.vstr i)] = some (.vstr i) := rfl
    constructor
    · rw [← heq]
      exact dfind_foldl_dinsert_isSome "id" pr.metadata [("id", .vstr i)]
        (by rw [hinit]; rfl)
    · refine ⟨i, pr, hin, by rw [← heq], fun hnone => ?_⟩
      rw [← heq]
      exact (dfind_foldl_dinsert_none "id" pr.metadata [("id", .vstr i)] hnone).trans hinit
  · unfold sqlGet at hsg
    rcases List.mem_map.mp hsg with ⟨⟨i, pr⟩, hin, heq⟩
    have hin2 : (i, pr) ∈ st.rag_data :=
      (List.mem_filter.mp (List.take_subset _ _ hin)).1
    exact ⟨i, pr, hin2, by rw [← heq], by rw [← heq]⟩

theorem retrieved_item_id_attribute_witness :
    (⟨"tx", ⟨0, 1⟩, [("url", PyVal.vstr "u"), ("id", PyVal.vstr "d1")]⟩ : RAGData)
      ∈ pgQueryText ⟨8, 10⟩ [("d1", ⟨"tx", [⟨1, 1⟩], [("url", PyVal.vstr "u")]⟩)]
    ∧ (⟨"tx", ⟨0, 1⟩, [("url", PyVal.vstr "u")]⟩ : RAGData)
      ∈ pgGet [] 5 [("d1", ⟨"tx", [⟨1, 1⟩], [("url", PyVal.vstr "u")]⟩)]
    ∧ (⟨"tx", ⟨0, 1⟩, [("id", PyVal.vstr "d1"), ("url", PyVal.vstr "u")]⟩ : RAGData)
      ∈ sqlQueryText [("d1", ⟨"tx", [⟨1, 1⟩], [("url", PyVal.vstr "u")]⟩)]
    ∧ (⟨"tx", ⟨0, 1⟩, [("url", PyVal.vstr "u")]⟩ : RAGData)
      ∈ sqlGet [] 5 ⟨[("d1", ⟨"tx", [⟨1, 1⟩], [("url", PyVal.vstr "u")]⟩)], []⟩
    ∧ (∃ i, dfind "id"
          (⟨"tx", ⟨0, 1⟩, [("url", PyVal.vstr "u"), ("id", PyVal.vstr "d1")]⟩ : RAGData).metadata
          = some (.vstr i)
        ∧ ∃ pr, (i, pr) ∈ [("d1", (⟨"tx", [⟨1, 1⟩], [("url", PyVal.vstr "u")]⟩ : PgRow))])
    ∧ (dfind "id"
        (⟨"tx", ⟨0, 1⟩, [("id", PyVal.vstr "d1"), ("url", PyVal.vstr "u")]⟩ : RAGData).metadata).isSome
        = true :=
  ⟨by decide, by decide, by decide, by decide,
   (retrieved_item_id_attribute ⟨8, 10⟩ [("d1", ⟨"tx", [⟨1, 1⟩], [("url", PyVal.vstr "u")]⟩)]
      [("d1", ⟨"tx", [⟨1, 1⟩], [("url", PyVal.vstr "u")]⟩)] [] [] 5 5
      [("d1", ⟨"tx", [⟨1, 1⟩], [("url", PyVal.vstr "u")]⟩)]
      ⟨[("d1", ⟨"tx", [⟨1, 1⟩], [("url", PyVal.vstr "u")]⟩)], []⟩
      ⟨"tx", ⟨0, 1⟩, [("url", PyVal.vstr "u"), ("id", PyVal.vstr "d1")]⟩
      ⟨"tx", ⟨0, 1⟩, [("url", PyVal.vstr "u")]⟩
      ⟨"tx", ⟨0, 1⟩, [("id", PyVal.vstr "d1"), ("url", PyVal.vstr "u")]⟩
      ⟨"tx", ⟨0, 1⟩, [("url", PyVal.vstr "u")]⟩
      (by decide) (by decide) (by decide) (by decide)).1,
   (retrieved_item_id_attribute ⟨8, 10⟩ [("d1", ⟨"tx", [⟨1, 1⟩], [("url", PyVal.vstr "u")]⟩)]
      [("d1", ⟨"tx", [⟨1, 1⟩], [("url", PyVal.vstr "u")]⟩)] [] [] 5 5
      [("d1", ⟨"tx", [⟨1, 1⟩], [("url", PyVal.vstr "u")]⟩)]
      ⟨[("d1", ⟨"tx", [⟨1, 1⟩], [("url", PyVal.vstr "u")]⟩)], []⟩
      ⟨"tx", ⟨0, 1⟩, [("url", PyVal.vstr "u"), ("id", PyVal.vstr "d1")]⟩
      ⟨"tx", ⟨0, 1⟩, [("url", PyVal.vstr "u")]⟩
      ⟨"tx", ⟨0, 1⟩, [("id", PyVal.vstr "d1"), ("url", PyVal.vstr "u")]⟩
      ⟨"tx", ⟨0, 1⟩, [("url", PyVal.vstr "u")]⟩
      (by decide) (by decide) (by decide) (by decide)).2.2.1.1⟩

/-- C3 counterexample: a document saved on the Postgres backend without a
caller-supplied id (the store generating uuid gen-uuid-1) is returned by
get with its metadata json exactly as saved, carrying NO id key. -/
theorem postgres_get_missing_id_cex :
    pgSaveText embedOne "gen-uuid-1" "tx" [("url", PyVal.vstr "u")] []
      = [("gen-uuid-1", ⟨"tx", [⟨1, 1⟩], [("url", PyVal.vstr "u")]⟩)]
    ∧ (pgGet [] 5 [("gen-uuid-1", ⟨"tx", [⟨1, 1⟩], [("url", PyVal.vstr "u")]⟩)]).map
        (fun r => dfind "id" r.metadata) = [none] :=
  ⟨by decide, by decide⟩

/-- C4: when the first upload is rejected with a does-not-exist-on-type
schema error, AzureSearchRAGDatabase.save_text migrates the schema with
_update_fields and retries the identical write exactly once, propagating
the outcome of that retry verbatim (a second failure reaches the caller);
no execution performs more than two write attempts. -/
theorem azure_schema_migration_retry_once
    (attempt : List (String × PyJson) → AzSchema → Except String Unit)
    (embed : String → List Frac) (fresh text : String)
    (metadata : List (String × PyJson)) (schema : AzSchema) (e : String)
    (h0 : attempt (azBuildDoc embed fresh text metadata) schema = .error e)
    (hp : strContains e "does not exist on type" = true) :
    azSaveText attempt embed fresh text metadata schema
      = (attempt (azBuildDoc embed fresh text metadata)
          (azUpdateFields (azBuildDoc embed fresh text metadata) schema), 2)
    ∧ ∀ (a2 : List (String × PyJson) → AzSchema → Except String Unit)
        (em2 : String → List Frac) (f2 t2 : String)
        (m2 : List (String × PyJson)) (s2 : AzSchema),
        (azSaveText a2 em2 f2 t2 m2 s2).2 ≤ 2 := by
  constructor
  · unfold azSaveText
    simp only [h0, hp, if_true]
  · intro a2 em2 f2 t2 m2 s2
    unfold azSaveText
    cases ha : a2 (azBuildDoc em2 f2 t2 m2) s2 with
    | ok u => simp [ha]
    | error e2 =>
      by_cases hc : strContains e2 "does not exist on type" = true
      · simp [ha, hc]
      · simp [ha, hc]

theorem azure_schema_migration_retry_once_witness :
    attemptW (azBuildDoc embedOne "u1" "t" [("flag", PyJson.vbool true)]) []
      = .error "field flag does not exist on type doc"
    ∧ azSaveText attemptW embedOne "u1" "t" [("flag", PyJson.vbool true)] []
      = (.error "boom", 2) := by
  refine ⟨by decide, ?_⟩
  have h := (azure_schema_migration_retry_once attemptW embedOne "u1" "t"
    [("flag", PyJson.vbool true)] [] "field flag does not exist on type doc"
    (by decide) (by decide)).1
  rw [h]
  decide

/-- C5 (amended): a descriptor whose metadata references the descriptor
itself makes instantiate_from_config recurse until the call depth bound is
exhausted (the Python RecursionError), for EVERY depth bound: the code has
no cycle detection and no CyclicReference error exists in it. -/
theorem self_reference_unbounded_recursion (fuel : Nat) :
    instantiate selfStore fuel selfCfg selfHeap = .error .recursionError :=
  instantiate_selfloop fuel selfHeap rfl

theorem self_reference_unbounded_recursion_witness :
    instantiate selfStore 7 selfCfg selfHeap = .error .recursionError :=
  self_reference_unbounded_recursion 7

/-- C5 counterexample: instantiating the self-referencing descriptor with a
recursion budget of 50 frames exhausts the budget (RecursionError); no
CyclicReference failure exists anywhere in the code, whose only errors here
are those of the InstErr type. -/
theorem self_reference_no_cyclic_error_cex :
    instantiate selfStore 50 selfCfg selfHeap = .error .recursionError := by decide

/-- C6 (code bug): JSONStore.store_config raises TypeError on every call,
because open(filepath, w, utf-8) passes the string utf-8 as the integer
buffering argument of the Python builtin open; nothing is persisted — and
its trailing return obj would hand back the original descriptor without
populating created even if the write succeeded. -/
theorem json_store_config_type_error (now : Int) (h : Heap) (obj : ConfigObject)
    (fs : FileSys) :
    store_config now h obj fs
      = .error "TypeError: an integer is required (got type str)" := rfl

theorem json_store_config_type_error_witness :
    store_config 1727740800 selfHeap ⟨"ragstore", "pg", "PostgresStore", 0, none⟩ []
      = .error "TypeError: an integer is required (got type str)" :=
  json_store_config_type_error 1727740800 selfHeap ⟨"ragstore", "pg", "PostgresStore", 0, none⟩ []

/-- C7 (code bug): _get_azure_search_data_type tests isinstance(value, int)
before isinstance(value, bool), and Python bool is a subclass of int, so a
boolean attribute is mapped to Edm.Int32 and the Boolean branch is dead
code; strings, ints, floats and lists map as the claim states. -/
theorem bool_field_type_maps_to_int32 :
    getAzureSearchDataType (PyJson.vbool true) = AzFieldType.int32
    ∧ getAzureSearchDataType (PyJson.vbool false) = AzFieldType.int32
    ∧ getAzureSearchDataType (PyJson.vbool true) ≠ AzFieldType.boolean
    ∧ getAzureSearchDataType (PyJson.vstr "x") = AzFieldType.string
    ∧ getAzureSearchDataType (PyJson.vint 7) = AzFieldType.int32
    ∧ getAzureSearchDataType (PyJson.vfloat ⟨1, 2⟩) = AzFieldType.double
    ∧ getAzureSearchDataType (PyJson.vlist [PyJson.vstr "a"]) = AzFieldType.collectionString := by
  decide

/-- C8 (amended): on the fusion example (query A returning id1 then id2,
query B returning id2 then id3), the code accumulates 1/(60 + rank + 1)
with 0-based ranks, so score(id2) = 1/62 + 1/61 and score(id1) = 1/61;
id2 is ranked first and the truncated fused output has exactly two items
(id2 then id1). -/
theorem fusion_example_scores_amended :
    (fusedState s8store ["A", "B"]).map
        (fun st => ((dfind (PyVal.vstr "id2") st.scores).map Frac.toRat,
                    (dfind (PyVal.vstr "id1") st.scores).map Frac.toRat))
      = .ok (some ((1 : ℚ)/62 + 1/61), some ((1 : ℚ)/61))
    ∧ ragToolItems s8store ["A", "B"] = .ok ["#URL:u2\n d2\n\n", "#URL:u1\n d1\n\n"] := by
  constructor
  · have h : fusedState s8store ["A", "B"] = .ok st8 := by decide
    have h2 : dfind (PyVal.vstr "id2") st8.scores = some (⟨123, 3782⟩ : Frac) := by decide
    have h1 : dfind (PyVal.vstr "id1") st8.scores = some (⟨1, 61⟩ : Frac) := by decide
    rw [h]
    simp only [Except.map, h2, h1, Option.map]
    norm_num [Frac.toRat]
  · decide

/-- C8 counterexample: the fused score of id2 on the example is NOT
1/61 + 1/60 (the code divides by k + rank + 1 with rank starting at 0, not
by k + rank with rank starting at 1): it is 123/3782 = 1/62 + 1/61, while
1/61 + 1/60 = 121/3660. -/
theorem fusion_example_score_cex :
    (fusedState s8store ["A", "B"]).map
        (fun st => (dfind (PyVal.vstr "id2") st.scores).map Frac.toRat)
      ≠ .ok (some ((1 : ℚ)/61 + 1/60)) := by
  intro hcontra
  have h : fusedState s8store ["A", "B"] = .ok st8 := by decide
  have h2 : dfind (PyVal.vstr "id2") st8.scores = some (⟨123, 3782⟩ : Frac) := by decide
  rw [h] at hcontra
  simp only [Except.map, h2, Option.map, Except.ok.injEq, Option.some.injEq] at hcontra
  norm_num [Frac.toRat] at hcontra

/-- C9: the factory deep-copies descriptor metadata before resolving
references: a successful instantiation leaves every pre-existing heap cell
unchanged (in particular the stored descriptor metadata dict), the
constructed object's parameter dict lives in a cell allocated during the
call, and writing to any cell at or above the pre-call heap size — the
resolved parameter map or anything else allocated during construction —
cannot change any pre-existing cell. -/
theorem factory_metadata_deepcopy_frame
    (store : ConfigStore) (fuel : Nat) (cfg : ConfigObject) (h : Heap)
    (r : ObjValue × Heap)
    (hok : instantiate store fuel cfg h = .ok r)
    (hm : cfg.metadata < h.cells.length) :
    r.2.read cfg.metadata = h.read cfg.metadata
    ∧ h.cells.length ≤ r.1.params
    ∧ ∀ (d : PyDict) (b : Addr), h.cells.length ≤ b →
        ∀ a, a < h.cells.length → (r.2.write b d).read a = h.read a := by
  obtain ⟨hext, hparams⟩ := instantiate_extends store fuel cfg h r hok
  refine ⟨hext.2 cfg.metadata hm, Nat.le_of_eq hparams.symm, ?_⟩
  intro d b hb a ha
  rw [Heap.read_write_ne r.2 b d a (Nat.ne_of_gt (Nat.lt_of_lt_of_le ha hb))]
  exact hext.2 a ha

theorem factory_metadata_deepcopy_frame_witness :
    instantiate store9 5 cfgA9 heap9 = .ok (⟨"PostgresStore", 2⟩, heap9Final)
    ∧ cfgA9.metadata < heap9.cells.length
    ∧ heap9Final.read cfgA9.metadata = heap9.read cfgA9.metadata :=
  ⟨by decide, by decide,
   (factory_metadata_deepcopy_frame store9 5 cfgA9 heap9 (⟨"PostgresStore", 2⟩, heap9Final)
      (by decide) (by decide)).1⟩

/-- C10: for every queries list on which the fused truncated result is
defined, RagTool.__call__ returns a rendered string exactly when every item
of that truncated result carries a url metadata key; when any item lacks
url the call raises KeyError (the url lookup in the rendering loop is
unguarded). -/
theorem ragtool_url_lookup_unguarded
    (store : String → List RAGData) (queries : List String)
    (finalTrunc : List RAGData)
    (hf : truncFused store queries = .ok finalTrunc) :
    ((∀ r ∈ finalTrunc, (dfind "url" r.metadata).isSome = true) →
        ∃ s, ragToolCall store queries = .ok s)
    ∧ (∀ s, ragToolCall store queries = .ok s →
        ∀ r ∈ finalTrunc, (dfind "url" r.metadata).isSome = true)
    ∧ ((∃ r ∈ finalTrunc, dfind "url" r.metadata = none) →
        ragToolCall store queries = .error "KeyError: url") := by
  have hitems : ragToolItems store queries = listMapExcept fmtItem finalTrunc := by
    unfold ragToolItems
    rw [hf]
    rfl
  refine ⟨?_, ?_, ?_⟩
  · intro hall
    rcases listMapExcept_ok_of_all finalTrunc hall with ⟨ys, hys⟩
    refine ⟨strIntercalate "\n\n" ys, ?_⟩
    unfold ragToolCall
    rw [hitems, hys]
    rfl
  · intro s hs r hr
    unfold ragToolCall at hs
    rw [hitems] at hs
    cases hys : listMapExcept fmtItem finalTrunc with
    | error e =>
      rw [hys] at hs
      simp only [Except.map] at hs
      exact Except.noConfusion hs
    | ok ys => exact listMapExcept_ok_mem_isSome finalTrunc ys hys r hr
  · intro hex
    unfold ragToolCall
    rw [hitems, listMapExcept_error_of_missing finalTrunc hex]
    rfl

theorem ragtool_url_lookup_unguarded_witness :
    truncFused s10store ["Q"] = .ok [⟨"doc", ⟨0, 1⟩, [("id", PyVal.vstr "a")]⟩]
    ∧ ragToolCall s10store ["Q"] = .error "KeyError: url" :=
  ⟨by decide,
   (ragtool_url_lookup_unguarded s10store ["Q"] [⟨"doc", ⟨0, 1⟩, [("id", PyVal.vstr "a")]⟩]
      (by decide)).2.2
     ⟨⟨"doc", ⟨0, 1⟩, [("id", PyVal.vstr "a")]⟩, by decide, by decide⟩⟩
